import Mathlib

/-!
Verification of the doc-to-markdown transformer of cargo-readme
(src/readme/transform.rs).

The transformer is an iterator adapter over a sequence of lines.  Its
state is the fence enum `Code` (None / Rust / Other) together with the
`indent_headings` flag.  We embed it as a function on `List String`:
`transformFromW` iterates the body of `DocTransformer::next`, and
`transformW` runs it from the initial state `Code.None`.  The
other-fence regex uses `\w`, which `Regex::new` compiles
Unicode-aware; the sources pin no regex crate version, so the
embedding takes the word-character class as a parameter `w`, theorems
about that pattern quantify over `w`, and `transformFrom`/`transform`
are the instance at the ASCII word characters (on which every Unicode
table agrees), used for concrete ASCII inputs.
-/

namespace CargoReadme

/-- The fence-state enum `Code` of transform.rs: `Rust` (inside a rust
code fence), `Other` (inside any other code fence), `None` (prose). -/
inductive Code
  | rust
  | other
  | none
deriving DecidableEq, Repr

/-- Rust's `line.starts_with("#")`: the first character of the line is
a hash mark. -/
def startsWithHash (line : String) : Bool :=
  line.data.take 1 == ['#']

/-- Rust's `line.starts_with("# ")`: the line begins with the
two-character prefix hash-then-space. -/
def startsWithHashSpace (line : String) : Bool :=
  line.data.take 2 == ['#', ' ']

/-- The language of `REGEX_CODE_RUST`, the anchored pattern
`^三backticks(rust|((rust,)?(no_run|ignore|should_panic)))?$` of
transform.rs (written here with the three backticks spelled out): it
matches exactly the eight fence spellings enumerated below, and
`Regex::is_match` on a line without embedded newlines is exact-match
for an anchored pattern. -/
def reCodeRustMatch (line : String) : Bool :=
  line == "```" || line == "```rust" ||
  line == "```no_run" || line == "```ignore" || line == "```should_panic" ||
  line == "```rust,no_run" || line == "```rust,ignore" || line == "```rust,should_panic"

/-- The language of `REGEX_CODE_TEXT` (anchored pattern matching
exactly the text-tagged fence). -/
def reCodeTextMatch (line : String) : Bool :=
  line == "```text"

/-- The ASCII regex word characters: alphanumeric or underscore.  The
source compiles `REGEX_CODE_OTHER` with plain `Regex::new`, whose `\w`
is Unicode-aware, and the repository pins no regex crate version (no
manifest or lockfile under src), so the full Unicode word-character
table is not derivable from the sources.  The embedding therefore
takes the word-character class as a parameter `w` (see
`reCodeOtherMatchW`), and the theorems about the other-fence pattern
quantify over `w`, covering the program's table whatever it is.
`isWordChar` is the ASCII restriction — every Unicode table agrees
with it on ASCII, where exactly the digits (Nd), the letters
(Alphabetic) and the underscore (Pc) are word characters — and is used
to instantiate the machine on concrete ASCII inputs. -/
def isWordChar (c : Char) : Bool :=
  c.isAlphanum || c == '_'

/-- A character allowed after the first tag character in
`REGEX_CODE_OTHER`, over the word-character class `w`: word character,
comma, or plus sign. -/
def isOtherTagCharW (w : Char → Bool) (c : Char) : Bool :=
  w c || c == ',' || c == '+'

/-- The language of `REGEX_CODE_OTHER`, the anchored pattern
`^三backticks\w[\w,\+]*$` of transform.rs, over the word-character
class `w`: three backticks followed immediately by a tag whose first
character is a word character and whose remaining characters are word
characters, commas, or plus signs. -/
def reCodeOtherMatchW (w : Char → Bool) (line : String) : Bool :=
  line.data.take 3 == "```".data &&
  match line.data.drop 3 with
  | c :: rest => w c && rest.all (isOtherTagCharW w)
  | [] => false

/-- The tag-character class at the ASCII word characters. -/
def isOtherTagChar (c : Char) : Bool :=
  isOtherTagCharW isWordChar c

/-- The other-fence pattern at the ASCII word characters, for concrete
ASCII inputs. -/
def reCodeOtherMatch (line : String) : Bool :=
  reCodeOtherMatchW isWordChar line

/-- The per-line rewrite of `DocTransformer::next` (transform.rs lines
86-99), over the word-character class `w`, applied to the current line
once hidden-line skipping is done: returns the new fence state and the
emitted line.  The branches are in the source's order: heading indent,
rust fence, text fence, other fence, fence close, default
pass-through. -/
def processLineW (w : Char → Bool) (indentHeadings : Bool) (sect : Code) (line : String) :
    Code × String :=
  if indentHeadings && sect == Code.none && startsWithHash line then
    (sect, String.mk ('#' :: line.data))
  else if sect == Code.none && reCodeRustMatch line then
    (Code.rust, "```rust")
  else if sect == Code.none && reCodeTextMatch line then
    (Code.other, "```")
  else if sect == Code.none && reCodeOtherMatchW w line then
    (Code.other, line)
  else if sect != Code.none && line == "```" then
    (Code.none, line)
  else
    (sect, line)

/-- The per-line rewrite at the ASCII word characters. -/
def processLine (indentHeadings : Bool) (sect : Code) (line : String) : Code × String :=
  processLineW isWordChar indentHeadings sect line

/-- The transformer run from an arbitrary fence state, over the
word-character class `w`: the iteration of `DocTransformer::next` over
the remaining input.  The first branch is the hidden-line while loop
(transform.rs lines 78-83): while the state is `Rust` and the line
starts with hash-space, the line is dropped and the next one fetched;
otherwise the line goes through the per-line rewrite and is
emitted. -/
def transformFromW (w : Char → Bool) (indentHeadings : Bool) : Code → List String → List String
  | _, [] => []
  | sect, line :: rest =>
    if sect == Code.rust && startsWithHashSpace line then
      transformFromW w indentHeadings sect rest
    else
      (processLineW w indentHeadings sect line).2 ::
        transformFromW w indentHeadings (processLineW w indentHeadings sect line).1 rest

/-- The transformer run at the ASCII word characters. -/
def transformFrom (indentHeadings : Bool) : Code → List String → List String :=
  transformFromW isWordChar indentHeadings

/-- A full transform run over the word-character class `w`:
`DocTransformer::new` initializes the state to `Code::None`. -/
def transformW (w : Char → Bool) (indentHeadings : Bool) (input : List String) : List String :=
  transformFromW w indentHeadings Code.none input

/-- A full transform run at the ASCII word characters. -/
def transform (indentHeadings : Bool) (input : List String) : List String :=
  transformFrom indentHeadings Code.none input

/-- Canonical-document predicate, written from the spec's idempotence
property (section 8) as amended: followed along the transformer's own
fence states, every fence opener reached in prose state is exactly the
canonical rust fence, no other line in prose state is a fence opener
or (when `indentHeadings` is set) a heading, and no line inside a rust
fence is a hidden line (hash-space prefixed).  This is the claim-side
definition used to state the fixed-point theorem; it is compared
against the transformer embedded above from the source. -/
def isCanonical (indentHeadings : Bool) : Code → List String → Bool
  | _, [] => true
  | Code.none, line :: rest =>
    if line == "```rust" then isCanonical indentHeadings Code.rust rest
    else if indentHeadings && startsWithHash line then false
    else if reCodeRustMatch line || reCodeTextMatch line || reCodeOtherMatch line then false
    else isCanonical indentHeadings Code.none rest
  | Code.rust, line :: rest =>
    if startsWithHashSpace line then false
    else if line == "```" then isCanonical indentHeadings Code.none rest
    else isCanonical indentHeadings Code.rust rest
  | Code.other, _ :: _ => false

/-! Helper lemmas about the line classifiers. -/

/-- A line matching the rust-fence regex is one of the eight spellings. -/
lemma reCodeRustMatch_cases (line : String) (h : reCodeRustMatch line = true) :
    line = "```" ∨ line = "```rust" ∨
    line = "```no_run" ∨ line = "```ignore" ∨ line = "```should_panic" ∨
    line = "```rust,no_run" ∨ line = "```rust,ignore" ∨ line = "```rust,should_panic" := by
  simpa [reCodeRustMatch, or_assoc] using h

/-- A rust-fence line does not start with a hash mark. -/
lemma rust_no_hash (line : String) (h : reCodeRustMatch line = true) :
    startsWithHash line = false := by
  rcases reCodeRustMatch_cases line h with rfl | rfl | rfl | rfl | rfl | rfl | rfl | rfl <;> decide

/-- An other-fence line (over any word-character class) begins with a
backtick, hence not with a hash mark. -/
lemma other_no_hashW (w : Char → Bool) (line : String) (h : reCodeOtherMatchW w line = true) :
    startsWithHash line = false := by
  unfold reCodeOtherMatchW at h
  rw [Bool.and_eq_true] at h
  have h3 : line.data.take 3 = "```".data := by
    have := h.1
    rwa [beq_iff_eq] at this
  have h1 : line.data.take 1 = (line.data.take 3).take 1 := by
    rw [List.take_take]
    norm_num
  unfold startsWithHash
  rw [h1, h3]
  decide

/-- An other-fence line at the ASCII class does not start with a hash
mark. -/
lemma other_no_hash (line : String) (h : reCodeOtherMatch line = true) :
    startsWithHash line = false :=
  other_no_hashW isWordChar line h

/-- A line starting with a hash mark does not match the rust-fence regex. -/
lemma hash_no_rust (line : String) (h : startsWithHash line = true) :
    reCodeRustMatch line = false := by
  cases hr : reCodeRustMatch line
  · rfl
  · rw [rust_no_hash line hr] at h
    exact absurd h (by decide)

/-- A line starting with a hash mark is not the text fence. -/
lemma hash_no_text (line : String) (h : startsWithHash line = true) :
    reCodeTextMatch line = false := by
  cases hr : reCodeTextMatch line
  · rfl
  · have heq : line = "```text" := by rwa [reCodeTextMatch, beq_iff_eq] at hr
    rw [heq] at h
    exact absurd h (by decide)

/-- A line starting with a hash mark does not match the other-fence
regex, over any word-character class. -/
lemma hash_no_otherW (w : Char → Bool) (line : String) (h : startsWithHash line = true) :
    reCodeOtherMatchW w line = false := by
  cases hr : reCodeOtherMatchW w line
  · rfl
  · rw [other_no_hashW w line hr] at h
    exact absurd h (by decide)

/-- A line starting with a hash mark does not match the other-fence
regex at the ASCII class. -/
lemma hash_no_other (line : String) (h : startsWithHash line = true) :
    reCodeOtherMatch line = false :=
  hash_no_otherW isWordChar line h

/-- A line starting with hash-space starts with a hash mark. -/
lemma hashSpace_hash (line : String) (h : startsWithHashSpace line = true) :
    startsWithHash line = true := by
  unfold startsWithHashSpace at h
  rw [beq_iff_eq] at h
  have h1 : line.data.take 1 = (line.data.take 2).take 1 := by
    rw [List.take_take]
    norm_num
  unfold startsWithHash
  rw [h1, h]
  decide

/-- A line starting with a hash mark is not the bare closing fence. -/
lemma hash_ne_close (line : String) (h : startsWithHash line = true) :
    line ≠ "```" := by
  intro heq
  rw [heq] at h
  exact absurd h (by decide)

/-! Unfolding lemmas for the transformer and its per-line step. -/

/-- The run ends exactly when the input ends, from any state and over
any word-character class. -/
lemma transformFromW_nil (w : Char → Bool) (ih : Bool) (sect : Code) :
    transformFromW w ih sect [] = [] := by
  cases sect <;> rfl

/-- One step of the run on a non-empty input, over any word-character
class. -/
lemma transformFromW_cons (w : Char → Bool) (ih : Bool) (sect : Code) (line : String)
    (rest : List String) :
    transformFromW w ih sect (line :: rest) =
      if sect == Code.rust && startsWithHashSpace line then
        transformFromW w ih sect rest
      else
        (processLineW w ih sect line).2 ::
          transformFromW w ih (processLineW w ih sect line).1 rest := by
  cases sect <;> rfl

/-- The run ends exactly when the input ends, from any state. -/
lemma transformFrom_nil (ih : Bool) (sect : Code) : transformFrom ih sect [] = [] := by
  cases sect <;> rfl

/-- One step of the run on a non-empty input. -/
lemma transformFrom_cons (ih : Bool) (sect : Code) (line : String) (rest : List String) :
    transformFrom ih sect (line :: rest) =
      if sect == Code.rust && startsWithHashSpace line then
        transformFrom ih sect rest
      else
        (processLine ih sect line).2 ::
          transformFrom ih (processLine ih sect line).1 rest := by
  cases sect <;> rfl

/-- Heading branch, over any word-character class: in prose state with
the flag set, a hash-leading line gets one extra hash mark and the
state is unchanged. -/
lemma processLineW_none_heading (w : Char → Bool) (line : String)
    (h : startsWithHash line = true) :
    processLineW w true Code.none line = (Code.none, String.mk ('#' :: line.data)) := by
  simp [processLineW, h]

/-- With the flag unset, a hash-leading line in prose state passes
through unchanged, over any word-character class. -/
lemma processLineW_none_hash_noIndent (w : Char → Bool) (line : String)
    (h : startsWithHash line = true) :
    processLineW w false Code.none line = (Code.none, line) := by
  simp [processLineW, hash_no_rust line h, hash_no_text line h, hash_no_otherW w line h]

/-- Rust-fence branch, over any word-character class: a rust-fence
line in prose state is rewritten to the canonical fence and the state
becomes rust. -/
lemma processLineW_none_rust (w : Char → Bool) (ih : Bool) (line : String)
    (h : reCodeRustMatch line = true) :
    processLineW w ih Code.none line = (Code.rust, "```rust") := by
  simp [processLineW, h, rust_no_hash line h]

/-- Text-fence branch, over any word-character class: the text fence
in prose state is rewritten to the bare fence and the state becomes
other. -/
lemma processLineW_none_text (w : Char → Bool) (ih : Bool) :
    processLineW w ih Code.none "```text" = (Code.other, "```") := by
  have h1 : startsWithHash "```text" = false := by decide
  have h2 : reCodeRustMatch "```text" = false := by decide
  have h3 : reCodeTextMatch "```text" = true := by decide
  simp [processLineW, h1, h2, h3]

/-- Other-fence branch, over any word-character class: an other-fence
line in prose state (matching neither earlier pattern) passes through
and the state becomes other. -/
lemma processLineW_none_other (w : Char → Bool) (ih : Bool) (line : String)
    (ho : reCodeOtherMatchW w line = true) (hr : reCodeRustMatch line = false)
    (ht : reCodeTextMatch line = false) :
    processLineW w ih Code.none line = (Code.other, line) := by
  simp [processLineW, ho, hr, ht, other_no_hashW w line ho]

/-- Default prose branch, over any word-character class: a prose line
matching no fence pattern and (when the flag is set) not starting with
a hash mark passes through with the state unchanged. -/
lemma processLineW_none_default (w : Char → Bool) (ih : Bool) (line : String)
    (hh : (ih && startsWithHash line) = false)
    (hr : reCodeRustMatch line = false) (ht : reCodeTextMatch line = false)
    (ho : reCodeOtherMatchW w line = false) :
    processLineW w ih Code.none line = (Code.none, line) := by
  simp [processLineW, hh, hr, ht, ho]

/-- Close branch, over any word-character class: the bare fence inside
any code fence closes it and passes through. -/
lemma processLineW_close (w : Char → Bool) (ih : Bool) (sect : Code) (h : sect ≠ Code.none) :
    processLineW w ih sect "```" = (Code.none, "```") := by
  cases sect
  · simp [processLineW]
  · simp [processLineW]
  · exact absurd rfl h

/-- Default branch, over any word-character class: inside a code
fence, any line other than the bare fence passes through with the
state unchanged. -/
lemma processLineW_not_none_pass (w : Char → Bool) (ih : Bool) (sect : Code) (line : String)
    (hs : sect ≠ Code.none) (hl : line ≠ "```") :
    processLineW w ih sect line = (sect, line) := by
  have hb : (line == "```") = false := by simp [hl]
  cases sect
  · simp [processLineW, hb]
  · simp [processLineW, hb]
  · exact absurd rfl hs

/-- Heading branch at the ASCII class. -/
lemma processLine_none_heading (line : String) (h : startsWithHash line = true) :
    processLine true Code.none line = (Code.none, String.mk ('#' :: line.data)) :=
  processLineW_none_heading isWordChar line h

/-- Unset-flag heading passthrough at the ASCII class. -/
lemma processLine_none_hash_noIndent (line : String) (h : startsWithHash line = true) :
    processLine false Code.none line = (Code.none, line) :=
  processLineW_none_hash_noIndent isWordChar line h

/-- Rust-fence branch at the ASCII class. -/
lemma processLine_none_rust (ih : Bool) (line : String) (h : reCodeRustMatch line = true) :
    processLine ih Code.none line = (Code.rust, "```rust") :=
  processLineW_none_rust isWordChar ih line h

/-- Text-fence branch at the ASCII class. -/
lemma processLine_none_text (ih : Bool) :
    processLine ih Code.none "```text" = (Code.other, "```") :=
  processLineW_none_text isWordChar ih

/-- Other-fence branch at the ASCII class. -/
lemma processLine_none_other (ih : Bool) (line : String) (ho : reCodeOtherMatch line = true)
    (hr : reCodeRustMatch line = false) (ht : reCodeTextMatch line = false) :
    processLine ih Code.none line = (Code.other, line) :=
  processLineW_none_other isWordChar ih line ho hr ht

/-- Close branch at the ASCII class. -/
lemma processLine_close (ih : Bool) (sect : Code) (h : sect ≠ Code.none) :
    processLine ih sect "```" = (Code.none, "```") :=
  processLineW_close isWordChar ih sect h

/-- Default in-fence branch at the ASCII class. -/
lemma processLine_not_none_pass (ih : Bool) (sect : Code) (line : String)
    (hs : sect ≠ Code.none) (hl : line ≠ "```") :
    processLine ih sect line = (sect, line) :=
  processLineW_not_none_pass isWordChar ih sect line hs hl

/-! Claim theorems. -/

/-- C1: every input line met in prose state that is one of the eight
rust-fence spellings is emitted as the canonical rust fence and the
state becomes rust. -/
theorem rust_fence_canonicalization (ih : Bool) (line : String) (rest : List String)
    (h : reCodeRustMatch line = true) :
    transformFrom ih Code.none (line :: rest) =
      "```rust" :: transformFrom ih Code.rust rest := by
  rw [transformFrom_cons]
  simp [processLine_none_rust ih line h]

/-- Witness for C1 at the concrete spelling with the panic annotation. -/
theorem rust_fence_canonicalization_witness :
    reCodeRustMatch "```should_panic" = true ∧
      transformFrom true Code.none ["```should_panic"] =
        "```rust" :: transformFrom true Code.rust [] :=
  ⟨by decide, rust_fence_canonicalization true "```should_panic" [] (by decide)⟩

/-- C2: inside a rust fence, a hash-space line is discarded (the run
continues on the rest, so consecutive hidden lines are skipped in
turn, and a hidden line at end of input yields no output), while the
identical prefix inside an other fence is emitted verbatim with the
state unchanged. -/
theorem hidden_line_stripping :
    (∀ (ih : Bool) (line : String) (rest : List String), startsWithHashSpace line = true →
      transformFrom ih Code.rust (line :: rest) = transformFrom ih Code.rust rest) ∧
    (∀ (ih : Bool) (line : String), startsWithHashSpace line = true →
      transformFrom ih Code.rust [line] = []) ∧
    (∀ (ih : Bool) (line : String) (rest : List String), startsWithHashSpace line = true →
      transformFrom ih Code.other (line :: rest) = line :: transformFrom ih Code.other rest) := by
  refine ⟨?_, ?_, ?_⟩
  · intro ih line rest h
    rw [transformFrom_cons]
    simp [h]
  · intro ih line h
    rw [transformFrom_cons]
    simp [h, transformFrom_nil]
  · intro ih line rest h
    have hne : line ≠ "```" := hash_ne_close line (hashSpace_hash line h)
    rw [transformFrom_cons]
    simp [processLine_not_none_pass ih Code.other line (by decide) hne]

/-- Witness for C2 at concrete hidden and non-hidden lines. -/
theorem hidden_line_stripping_witness :
    startsWithHashSpace "# let hidden = 2;" = true ∧
      transformFrom true Code.rust ["# let hidden = 2;", "```"] =
        transformFrom true Code.rust ["```"] ∧
      transformFrom true Code.rust ["# let hidden = 2;"] = [] ∧
      transformFrom true Code.other ["# comment", "```"] =
        "# comment" :: transformFrom true Code.other ["```"] :=
  ⟨by decide, hidden_line_stripping.1 true "# let hidden = 2;" ["```"] (by decide),
    hidden_line_stripping.2.1 true "# let hidden = 2;" (by decide),
    hidden_line_stripping.2.2 true "# comment" ["```"] (by decide)⟩

/-- C4: in prose state with the flag set, a hash-leading line gains
exactly one hash mark; with the flag unset it is unchanged; and two
runs with the flag set take a level-one heading to a level-three
heading (no deduplication). -/
theorem heading_indent :
    (∀ (line : String) (rest : List String), startsWithHash line = true →
      transformFrom true Code.none (line :: rest) =
        String.mk ('#' :: line.data) :: transformFrom true Code.none rest) ∧
    (∀ (line : String) (rest : List String), startsWithHash line = true →
      transformFrom false Code.none (line :: rest) =
        line :: transformFrom false Code.none rest) ∧
    transform true ["# H1"] = ["## H1"] ∧
    transform true (transform true ["# H1"]) = ["### H1"] := by
  refine ⟨?_, ?_, by decide, by decide⟩
  · intro line rest h
    rw [transformFrom_cons]
    simp [processLine_none_heading line h]
  · intro line rest h
    rw [transformFrom_cons]
    simp [processLine_none_hash_noIndent line h]

/-- Witness for C4 at a concrete heading line. -/
theorem heading_indent_witness :
    startsWithHash "# Usage" = true ∧
      transformFrom true Code.none ["# Usage"] =
        String.mk ('#' :: String.data "# Usage") :: transformFrom true Code.none [] ∧
      transformFrom false Code.none ["# Usage"] =
        "# Usage" :: transformFrom false Code.none [] :=
  ⟨by decide, heading_indent.1 "# Usage" [] (by decide),
    heading_indent.2.1 "# Usage" [] (by decide)⟩

/-- C5: the text fence met in prose state is emitted as the bare fence
with the state set to other, and the three-line text block loses its
tag. -/
theorem text_fence_detagging :
    (∀ (ih : Bool) (rest : List String),
      transformFrom ih Code.none ("```text" :: rest) =
        "```" :: transformFrom ih Code.other rest) ∧
    (∀ ih : Bool, transform ih ["```text", "line", "```"] = ["```", "line", "```"]) := by
  constructor
  · intro ih rest
    rw [transformFrom_cons]
    simp [processLine_none_text ih]
  · intro ih
    cases ih <;> decide

/-- C6: the output ends exactly when the input ends, from any fence
state, with no synthetic closing fence; the unterminated two-line rust
block is reproduced as is. -/
theorem unterminated_fence_left_open :
    (∀ (ih : Bool) (sect : Code), transformFrom ih sect [] = []) ∧
    (∀ ih : Bool, transform ih ["```rust", "let x = 1;"] = ["```rust", "let x = 1;"]) := by
  constructor
  · exact fun ih sect => transformFrom_nil ih sect
  · intro ih
    cases ih <;> decide

/-- C9: inside a rust fence, a line that is neither hash-space
prefixed nor the bare closing fence is emitted verbatim and the state
stays rust — including lines that look like fence openers. -/
theorem rust_fence_content_passthrough (ih : Bool) (line : String) (rest : List String)
    (h1 : startsWithHashSpace line = false) (h2 : line ≠ "```") :
    transformFrom ih Code.rust (line :: rest) = line :: transformFrom ih Code.rust rest := by
  rw [transformFrom_cons]
  simp [h1, processLine_not_none_pass ih Code.rust line (by decide) h2]

/-- Witness for C9 at a nested python fence opener. -/
theorem rust_fence_content_passthrough_witness :
    startsWithHashSpace "```python" = false ∧ "```python" ≠ "```" ∧
      transformFrom true Code.rust ["```python"] =
        "```python" :: transformFrom true Code.rust [] :=
  ⟨by decide, by decide,
    rust_fence_content_passthrough true "```python" [] (by decide) (by decide)⟩

/-- C10: inside a rust fence, a line starting with a hash mark not
followed by a space (a bare hash, an attribute, etc.) is emitted
verbatim, not stripped: only the exact hash-space prefix hides a
line. -/
theorem rust_fence_attribute_kept (ih : Bool) (line : String) (rest : List String)
    (h1 : startsWithHash line = true) (h2 : startsWithHashSpace line = false) :
    transformFrom ih Code.rust (line :: rest) = line :: transformFrom ih Code.rust rest := by
  rw [transformFrom_cons]
  simp [h2, processLine_not_none_pass ih Code.rust line (by decide) (hash_ne_close line h1)]

/-- Witness for C10 at a derive attribute and with the bare hash shown
in the hypotheses. -/
theorem rust_fence_attribute_kept_witness :
    startsWithHash "#[derive(Debug)]" = true ∧
      startsWithHashSpace "#[derive(Debug)]" = false ∧
      transformFrom true Code.rust ["#[derive(Debug)]", "```"] =
        "#[derive(Debug)]" :: transformFrom true Code.rust ["```"] :=
  ⟨by decide, by decide,
    rust_fence_attribute_kept true "#[derive(Debug)]" ["```"] (by decide) (by decide)⟩

/-- Inside an other fence, any line but the bare closing fence passes
through verbatim with the state unchanged, over any word-character
class. -/
lemma other_state_passW (w : Char → Bool) (ih : Bool) (line : String) (rest : List String)
    (h : line ≠ "```") :
    transformFromW w ih Code.other (line :: rest) =
      line :: transformFromW w ih Code.other rest := by
  rw [transformFromW_cons]
  simp [processLineW_not_none_pass w ih Code.other line (by decide) h]

/-- A whole other-fence body followed by the closing fence passes
through verbatim, returning to prose state, over any word-character
class. -/
lemma other_block_passW (w : Char → Bool) (ih : Bool) (body rest : List String)
    (hb : ∀ l ∈ body, l ≠ "```") :
    transformFromW w ih Code.other (body ++ "```" :: rest) =
      body ++ "```" :: transformFromW w ih Code.none rest := by
  induction body with
  | nil =>
    rw [List.nil_append, transformFromW_cons]
    simp [processLineW_close w ih Code.other (by decide)]
  | cons l body IH =>
    rw [List.cons_append, other_state_passW w ih l _ (hb l (by simp)),
      IH (fun x hx => hb x (by simp [hx]))]
    rfl

/-- C7 counterexample: the line of three backticks followed by the tag
ignore satisfies the claim's description of an other-language fence
(first tag character a word character, the rest word characters — the
tag is pure ASCII, where every Unicode word-character table agrees
with `isWordChar`), yet in prose state the transformer sets the state
to rust, not other, and rewrites the line instead of passing it
through. -/
theorem other_fence_claim_counterexample :
    reCodeOtherMatch "```ignore" = true ∧
      processLine true Code.none "```ignore" ≠ (Code.other, "```ignore") ∧
      processLine true Code.none "```ignore" = (Code.rust, "```rust") ∧
      transform true ["```ignore", "let ignore = true;", "```"] ≠
        ["```ignore", "let ignore = true;", "```"] := by
  decide

/-- C7 as amended: over every word-character class `w` — hence in
particular the program's Unicode table for the regex `\w` — a line in
prose state matching the other-fence pattern that matches neither the
rust-fence pattern nor the text fence sets the state to other and is
emitted unmodified, and a whole foreign fenced block (opener, body
without a bare fence, closing fence) is emitted unchanged line for
line. -/
theorem other_fence_passthrough :
    (∀ (w : Char → Bool) (ih : Bool) (line : String) (rest : List String),
      reCodeOtherMatchW w line = true → reCodeRustMatch line = false →
      reCodeTextMatch line = false →
      transformFromW w ih Code.none (line :: rest) =
        line :: transformFromW w ih Code.other rest) ∧
    (∀ (w : Char → Bool) (ih : Bool) (opener : String) (body rest : List String),
      reCodeOtherMatchW w opener = true → reCodeRustMatch opener = false →
      reCodeTextMatch opener = false → (∀ l ∈ body, l ≠ "```") →
      transformFromW w ih Code.none (opener :: (body ++ "```" :: rest)) =
        opener :: (body ++ "```" :: transformFromW w ih Code.none rest)) := by
  constructor
  · intro w ih line rest ho hr ht
    rw [transformFromW_cons]
    simp [processLineW_none_other w ih line ho hr ht]
  · intro w ih opener body rest ho hr ht hb
    rw [transformFromW_cons]
    simp [processLineW_none_other w ih opener ho hr ht, other_block_passW w ih body rest hb]

/-- Witness for the amended C7 at a concrete C block, instantiating
the word-character class at its ASCII restriction (the block is pure
ASCII, where every Unicode table agrees with it). -/
theorem other_fence_passthrough_witness :
    reCodeOtherMatchW isWordChar "```C" = true ∧ reCodeRustMatch "```C" = false ∧
      reCodeTextMatch "```C" = false ∧
      transformFromW isWordChar true Code.none ["```C", "int i = 0;", "```"] =
        "```C" :: (["int i = 0;"] ++ "```" :: transformFromW isWordChar true Code.none []) :=
  ⟨by decide, by decide, by decide,
    other_fence_passthrough.2 isWordChar true "```C" ["int i = 0;"] [] (by decide) (by decide)
      (by decide) (by decide)⟩

/-- C8: over every word-character class `w` — hence in particular the
program's Unicode table for the regex `\w` — a full run starts in
prose state, and the per-line step changes the state only when, in
prose state, the line matches one of the three fence-open patterns,
or, inside a fence, the line is the bare closing fence; no other line
changes the state. -/
theorem fence_state_machine :
    (∀ (w : Char → Bool) (ih : Bool) (input : List String),
      transformW w ih input = transformFromW w ih Code.none input) ∧
    (∀ (w : Char → Bool) (ih : Bool) (sect : Code) (line : String),
      (processLineW w ih sect line).1 ≠ sect →
        (sect = Code.none ∧ (reCodeRustMatch line = true ∨ reCodeTextMatch line = true ∨
          reCodeOtherMatchW w line = true)) ∨
        (sect ≠ Code.none ∧ line = "```")) := by
  constructor
  · intro w ih input
    rfl
  · intro w ih sect line h
    unfold processLineW at h
    split at h
    · exact absurd rfl h
    · split at h
      · rename_i hc
        rw [Bool.and_eq_true, beq_iff_eq] at hc
        exact Or.inl ⟨hc.1, Or.inl hc.2⟩
      · split at h
        · rename_i hc
          rw [Bool.and_eq_true, beq_iff_eq] at hc
          exact Or.inl ⟨hc.1, Or.inr (Or.inl hc.2)⟩
        · split at h
          · rename_i hc
            rw [Bool.and_eq_true, beq_iff_eq] at hc
            exact Or.inl ⟨hc.1, Or.inr (Or.inr hc.2)⟩
          · split at h
            · rename_i hc
              rw [Bool.and_eq_true, bne_iff_ne, beq_iff_eq] at hc
              exact Or.inr hc
            · exact absurd rfl h

/-- Witness for C8 at the text fence in prose state, instantiating the
word-character class at its ASCII restriction. -/
theorem fence_state_machine_witness :
    (Code.none = Code.none ∧ (reCodeRustMatch "```text" = true ∨
      reCodeTextMatch "```text" = true ∨ reCodeOtherMatchW isWordChar "```text" = true)) ∨
    (Code.none ≠ Code.none ∧ "```text" = "```") :=
  fence_state_machine.2 isWordChar true Code.none "```text" (by decide)

/-- The run from any state reproduces a document that is canonical for
that state. -/
lemma transformFrom_canonical (ih : Bool) (doc : List String) :
    ∀ sect : Code, isCanonical ih sect doc = true → transformFrom ih sect doc = doc := by
  induction doc with
  | nil =>
    intro sect _
    exact transformFrom_nil ih sect
  | cons line rest IH =>
    intro sect h
    cases sect with
    | rust =>
      simp only [isCanonical] at h
      split at h
      · exact absurd h (by decide)
      · split at h
        · rename_i hns hcl
          rw [beq_iff_eq] at hcl
          subst hcl
          rw [transformFrom_cons]
          have hcs : startsWithHashSpace "```" = false := by decide
          simp [hcs, processLine_close ih Code.rust (by decide), IH Code.none h]
        · rename_i hns hcl
          rw [transformFrom_cons]
          have hns2 : startsWithHashSpace line = false := by
            cases hx : startsWithHashSpace line
            · rfl
            · exact absurd hx hns
          have hne : line ≠ "```" := by
            intro he
            exact hcl (by simp [he])
          simp [hns2, processLine_not_none_pass ih Code.rust line (by decide) hne,
            IH Code.rust h]
    | other =>
      simp only [isCanonical] at h
      exact absurd h (by decide)
    | none =>
      simp only [isCanonical] at h
      split at h
      · rename_i hcr
        rw [beq_iff_eq] at hcr
        subst hcr
        rw [transformFrom_cons]
        simp [processLine_none_rust ih "```rust" (by decide), IH Code.rust h]
      · split at h
        · exact absurd h (by decide)
        · split at h
          · exact absurd h (by decide)
          · rename_i hcr hh hre
            rw [transformFrom_cons]
            have hh2 : (ih && startsWithHash line) = false := by
              cases hx : (ih && startsWithHash line)
              · rfl
              · exact absurd hx hh
            simp only [Bool.or_eq_true, not_or, Bool.not_eq_true] at hre
            obtain ⟨⟨hr, ht⟩, ho⟩ := hre
            have hp : processLine ih Code.none line = (Code.none, line) :=
              processLineW_none_default isWordChar ih line hh2 hr ht ho
            simp [hp, IH Code.none h]

/-- C3 counterexample: the three-line document of a canonical rust
fence around a hidden line has every fence opener already exactly the
canonical rust fence and contains no heading, yet the transformer does
not reproduce it (with either flag value): the hidden line is
stripped. -/
theorem canonical_fixed_point_counterexample :
    (transform true ["```rust", "# x", "```"] ≠ ["```rust", "# x", "```"] ∧
      transform false ["```rust", "# x", "```"] ≠ ["```rust", "# x", "```"]) ∧
    transform true ["```rust", "# x", "```"] = ["```rust", "```"] := by
  decide

/-- C3 as amended: a document in which every fence opener is already
exactly the canonical rust fence, no line inside a rust fence begins
with hash-space, and, when the flag is set, no line outside fences
begins with a hash mark, is a fixed point of the transformer. -/
theorem canonical_fixed_point (ih : Bool) (doc : List String)
    (h : isCanonical ih Code.none doc = true) :
    transform ih doc = doc :=
  transformFrom_canonical ih doc Code.none h

/-- Witness for the amended C3 at a small canonical document. -/
theorem canonical_fixed_point_witness :
    isCanonical true Code.none
        ["Intro prose", "```rust", "let x = 1;", "#[derive(Debug)]", "```", "The end"] = true ∧
      transform true
          ["Intro prose", "```rust", "let x = 1;", "#[derive(Debug)]", "```", "The end"] =
        ["Intro prose", "```rust", "let x = 1;", "#[derive(Debug)]", "```", "The end"] :=
  ⟨by decide, canonical_fixed_point true _ (by decide)⟩

/-- The end-to-end scenario of the spec (section 8): the test document
of transform.rs is rewritten as expected. -/
lemma end_to_end_scenario :
    transform true ["```", "#[visible]", "let x = 1;", "# let hidden = 2;", "```"] =
      ["```rust", "#[visible]", "let x = 1;", "```"] := by decide

end CargoReadme
